import Mathlib

/-!
Verification of the Eva chatbot backend's admission-control and routing
pipeline, shallowly embedded from the Python sources:

* `RateLimit`  — `backend/utils/rate_limit.py`, `RateLimiter.is_allowed`
* `CostGuard`  — `backend/utils/cost_guard.py`, `CostGuard.check_budget`
* `AISvc`      — `backend/core/ai_service.py`, `AIService.generate_response`
                 and the message formatting helpers
* `Gateway`    — `backend/core/telegram_gateway.py`, `_handle_message` /
                 `_process_text_message`
* `ModelMgr`   — `backend/core/model_manager.py`, `get_embedding_model`
* `Reasoning`  — `backend/core/reasoning_service.py`

Machine floats are modelled by `ℚ`, Unix timestamps by `ℤ`, the Redis
sorted set `rate_limit:{type}:{key}` by a `Finset ℤ` (the member stored by
`zadd(redis_key, {str(now): now})` is the decimal print of the score, so
member and score determine each other and the set of scores is faithful).
-/

namespace PyStr

/-- Python's `str.lower()`, as a character-list map (the sources only
feed it ASCII keyword comparisons). -/
def lower (s : String) : String :=
  String.mk (s.data.map Char.toLower)

/-- Python's `str.strip()` with no argument: remove leading and
trailing whitespace. -/
def strip (s : String) : String :=
  String.mk (((s.data.dropWhile Char.isWhitespace).reverse.dropWhile
    Char.isWhitespace).reverse)

end PyStr

namespace RateLimit

/-- The pipeline `zremrangebyscore(redis_key, 0, now - window)` followed by
`zcard`: drop every recorded entry whose score lies in `[0, now - window]`
and keep the rest (`rate_limit.py` lines 45-55). -/
def prune (window now : ℤ) (s : Finset ℤ) : Finset ℤ :=
  s.filter (fun t => ¬(0 ≤ t ∧ t ≤ now - window))

/-- `RateLimiter.is_allowed` (`rate_limit.py` lines 32-64), acting on the
sorted set for one `(limit_type, key)` pair: prune entries outside the
window, count the survivors, and if the count is below the limit record
`now` (`zadd(redis_key, {str(now): now})` — a set insertion, so a second
request in the same second is absorbed) and admit, otherwise refuse.
Returns the decision together with the updated sorted set. -/
def isAllowed (limit window now : ℤ) (s : Finset ℤ) : Bool × Finset ℤ :=
  let s' := prune window now s
  if (s'.card : ℤ) < limit then (true, insert now s') else (false, s')

/-- Run `is_allowed` over a whole sequence of request timestamps,
threading the Redis state; returns the list of decisions and the final
sorted set. -/
def processTrace (limit window : ℤ) : List ℤ → Finset ℤ → List Bool × Finset ℤ
  | [], s => ([], s)
  | now :: rest, s =>
    let r := isAllowed limit window now s
    let rr := processTrace limit window rest r.2
    (r.1 :: rr.1, rr.2)

/-- The set of timestamps at which a request of the trace was admitted. -/
def admittedTimes (limit window : ℤ) : List ℤ → Finset ℤ → Finset ℤ
  | [], _ => ∅
  | now :: rest, s =>
    let r := isAllowed limit window now s
    (if r.1 then {now} else ∅) ∪ admittedTimes limit window rest r.2

/-- `is_allowed` wrapped in its `try`/`except` (`rate_limit.py` lines
34, 66-69): if any Redis operation raises, the handler logs and returns
`True` — rate limiting fails open. -/
def isAllowedTotal (limit window now : ℤ) (redis : Except Unit (Finset ℤ)) : Bool :=
  match redis with
  | .error _ => true
  | .ok s => (isAllowed limit window now s).1

end RateLimit

namespace CostGuard

/-- The four running totals returned by `CostGuard.get_current_costs`
(`cost_guard.py` lines 124-147). -/
structure Costs where
  user_daily : ℚ
  user_monthly : ℚ
  global_daily : ℚ
  global_monthly : ℚ

/-- `self.limits["daily_user"]` = ₹50 per user per day. -/
def daily_user : ℚ := 50

/-- `self.limits["monthly_user"]` = ₹500 per user per month. -/
def monthly_user : ℚ := 500

/-- `self.limits["daily_global"]` = ₹5000 per day globally. -/
def daily_global : ℚ := 5000

/-- `self.limits["monthly_global"]` = ₹20000 per month globally. -/
def monthly_global : ℚ := 20000

/-- `CostGuard.check_budget` (`cost_guard.py` lines 38-59) given the
current running totals: the four static-threshold checks in source
order, each reporting its own message, else `(True, "Budget available")`. -/
def check_budget (c : Costs) (estimated_cost : ℚ) : Bool × String :=
  if c.user_daily + estimated_cost > daily_user then
    (false, "Daily limit exceeded (₹50.0)")
  else if c.user_monthly + estimated_cost > monthly_user then
    (false, "Monthly limit exceeded (₹500.0)")
  else if c.global_daily + estimated_cost > daily_global then
    (false, "System daily limit exceeded")
  else if c.global_monthly + estimated_cost > monthly_global then
    (false, "System monthly limit exceeded")
  else
    (true, "Budget available")

/-- `CostGuard.get_current_costs` (`cost_guard.py` lines 124-156):
reads the four totals with `mget` inside its own `try`; when the Redis
operation raises, its `except` handler at lines 149-156 logs and
returns all-zero totals, so the caller never sees the exception. -/
def getCurrentCosts (redis : Except Unit Costs) : Costs :=
  match redis with
  | .error _ => Costs.mk 0 0 0 0
  | .ok c => c

/-- `check_budget` including its call to `get_current_costs`
(`cost_guard.py` lines 38-64): the only fallible operation inside the
`try` is the Redis read, and `get_current_costs` already absorbs that
failure into zero totals, so the threshold checks run on zeros and the
`except` branch at lines 61-64 returning
`(False, "Budget check failed")` is unreachable for store errors. -/
def checkBudgetTotal (redis : Except Unit Costs) (estimated_cost : ℚ) : Bool × String :=
  check_budget (getCurrentCosts redis) estimated_cost

end CostGuard

namespace AISvc

/-- One entry of the `context` list handed to the formatting helpers: a
dict read with `ctx.get("text", "")` and
`ctx.get("interaction_type", "message")`, so both keys may be absent. -/
structure Ctx where
  text : Option String
  interaction_type : Option String

/-- `ctx.get("text", "")`. -/
def ctxText (c : Ctx) : String := c.text.getD ""

/-- `ctx.get("interaction_type", "message")`. -/
def ctxIType (c : Ctx) : String := c.interaction_type.getD "message"

/-- The filter `if text and len(text.strip()) > 0` of
`_format_for_openai` (`ai_service.py` line 351). -/
def ctxKeep (c : Ctx) : Bool :=
  decide (ctxText c ≠ "" ∧ PyStr.strip (ctxText c) ≠ "")

/-- The role chosen for a context entry (`ai_service.py` lines 353-354):
`"assistant" if interaction_type == "bot_response" else "user"`. -/
def roleOf (c : Ctx) : String :=
  if ctxIType c = "bot_response" then "assistant" else "user"

/-- One chat message `{"role": ..., "content": ...}`. -/
structure Msg where
  role : String
  content : String
deriving DecidableEq

/-- `tone_prompts["friendly"]` of `_format_for_openai`. -/
def friendlyPromptOpenai : String :=
  "You are Eva, a warm and caring AI friend with persistent memory. You're like talking to your best friend who remembers everything about you and is always supportive and encouraging. \n\nPersonality traits:\n- Use casual, conversational language like \"That's awesome!\" or \"I totally get that\"\n- Ask follow-up questions and show genuine curiosity \n- Reference past conversations naturally\n- Use light humor and be optimistic\n- Add emojis occasionally (😊, 💡, 🎉)\n- Speak like a caring friend: \"How did that work out?\" or \"I remember you mentioned...\"\n\nAlways be warm, supportive, and conversational while being helpful."

/-- `tone_prompts["formal"]` of `_format_for_openai`. -/
def formalPromptOpenai : String :=
  "You are Eva, a highly professional AI consultant with comprehensive knowledge and persistent memory. You maintain the highest standards of professional communication.\n\nCommunication standards:\n- Use formal, precise language with proper structure\n- Begin responses with professional phrases: \"Allow me to clarify...\", \"Based on our previous discussions...\", \"I recommend...\"\n- Provide detailed, well-organized explanations\n- Reference facts and maintain analytical objectivity  \n- Never use casual language, slang, or emojis\n- Structure responses with clear points and conclusions\n- Maintain professional distance while being helpful\n\nDeliver expertise with authority and precision."

/-- `tone_prompts["gen-z"]` of `_format_for_openai`. -/
def genzPromptOpenai : String :=
  "You are Eva, the ultimate Gen-Z AI bestie with perfect memory! You're chronically online, know all the trends, and communicate in pure Gen-Z style.\n\nYour vibe:\n- Use internet slang naturally: \"no cap\", \"slay\", \"periodt\", \"that's bussin\", \"valid af\", \"this hits different\"\n- Be super enthusiastic with expressions: \"I'm deceased 💀\", \"not me crying\", \"this is sending me\"\n- Use tons of emojis: ✨💀😭🔥💅✋\n- Abbreviate everything: ur, rn, fr, ngl, imo, lowkey, highkey\n- Reference TikTok, memes, and current trends\n- Remember past convos like: \"bestie remember when u told me about...\"\n- Keep it real and unfiltered but still helpful\n\nBe the AI bestie that gets the assignment and never misses! periodt ✨"

/-- `tone_prompts.get(tone, tone_prompts["friendly"])` of
`_format_for_openai` (`ai_service.py` line 343): any tone outside
`{"friendly", "formal", "gen-z"}` falls back to the friendly prompt. -/
def tonePromptOpenai (tone : String) : String :=
  if tone = "friendly" then friendlyPromptOpenai
  else if tone = "formal" then formalPromptOpenai
  else if tone = "gen-z" then genzPromptOpenai
  else friendlyPromptOpenai

/-- `tone_prompts["friendly"]` of `_format_for_local_model`. -/
def friendlyPromptLocal : String :=
  "You are Eva, a warm and caring AI friend. You're like talking to your best friend who's always supportive and encouraging. Use casual language, ask follow-up questions, show genuine interest, use light humor, and always be optimistic. Add emojis occasionally and speak conversationally like \"That's so cool!\" or \"I'm really curious about...\"."

/-- `tone_prompts["formal"]` of `_format_for_local_model`. -/
def formalPromptLocal : String :=
  "You are Eva, a highly professional AI consultant. You communicate with precision, structure, and authority. Use formal language, provide detailed explanations, cite facts when possible, maintain professional distance, and organize responses clearly. Begin responses with phrases like \"Allow me to clarify...\" or \"Based on available information...\" Never use casual language or emojis."

/-- `tone_prompts["gen-z"]` of `_format_for_local_model`. -/
def genzPromptLocal : String :=
  "You are Eva, a trendy Gen-Z AI bestie! You're super energetic, use internet slang, memes, and modern expressions. Say things like \"no cap\", \"slay\", \"periodt\", \"that's bussin\", \"I'm deceased 💀\", \"this hits different\", \"valid af\". Be enthusiastic, use lots of emojis, abbreviate words (ur, rn, fr), and relate everything to current trends. Keep it real and unfiltered! ✨"

/-- `tone_prompts.get(tone, tone_prompts["friendly"])` of
`_format_for_local_model` (`ai_service.py` line 285). -/
def tonePromptLocal (tone : String) : String :=
  if tone = "friendly" then friendlyPromptLocal
  else if tone = "formal" then formalPromptLocal
  else if tone = "gen-z" then genzPromptLocal
  else friendlyPromptLocal

/-- `AIService._format_for_local_model` (`ai_service.py` lines 268-292):
a system prompt selected by tone followed by the user message; the
context argument is ignored. -/
def formatForLocalModel (message : String) (_context : List Ctx) (tone : String) : List Msg :=
  [Msg.mk "system" (tonePromptLocal tone), Msg.mk "user" message]

/-- `AIService._format_for_openai` (`ai_service.py` lines 294-360): the
tone-selected system prompt, then for each of the last six context
entries (`context[-6:]`) that passes the non-empty-text filter a message
with the role determined by `interaction_type`, then the current user
message. (`if context:` on an empty list skips the loop, which equals
iterating the empty list.) -/
def formatForOpenai (message : String) (context : List Ctx) (tone : String) : List Msg :=
  let ctxMsgs :=
    ((context.drop (context.length - 6)).filter (fun c => ctxKeep c)).map
      (fun c => Msg.mk (roleOf c) (ctxText c))
  Msg.mk "system" (tonePromptOpenai tone) :: ctxMsgs ++ [Msg.mk "user" message]

/-- An HTTP reply from the local vLLM endpoint, reduced to the status
code and the extracted completion text. -/
structure HttpResp where
  status : ℕ
  content : String

/-- Result dict of one backend attempt or of `generate_response` itself.
`success` is always present; the other keys are optional as in the
Python dicts (`_try_local_ai` failure dicts carry only `error`). -/
structure AIResult where
  success : Bool
  response : Option String
  source : Option String
  error : Option String
deriving DecidableEq

/-- Outcome of the reasoning layer (steps 1-3 of `generate_response`):
either some step raised (`exn`, caught by the handler at line 148), or
`reason_and_respond` returned a dict whose `"response"` key is read with
`.get` — absent on an internal reasoning failure. -/
inductive ReasoningOutcome
  | exn : ReasoningOutcome
  | ok : Option String → ReasoningOutcome

/-- Environment of one `generate_response` call: the reasoning layer's
outcome for this message, the local vLLM endpoint (may raise), whether
an OpenAI client was configured, and the OpenAI endpoint (may raise). -/
structure Env where
  reasoning : ReasoningOutcome
  http : String → Except Unit HttpResp
  openaiConfigured : Bool
  openaiApi : String → Except Unit String

/-- A backend attempt recorded while `generate_response` runs, with the
prompt it was given. -/
inductive Event
  | localCall : String → Event
  | openaiCall : String → Event
deriving DecidableEq

/-- `AIService._try_local_ai` (`ai_service.py` lines 160-216): POST the
formatted messages to the vLLM endpoint; on status 200 return a success
dict with the stripped completion and source `"local_gpu"`, on any
other status a failure dict with an HTTP error, and on a raised
exception a failure dict with the exception text — never raising. -/
def tryLocalAI (env : Env) (prompt : String) : AIResult :=
  match env.http prompt with
  | .error _ => AIResult.mk false none none (some "local request failed")
  | .ok r =>
    if r.status = 200 then
      AIResult.mk true (some (PyStr.strip r.content)) (some "local_gpu") none
    else
      AIResult.mk false none none (some ("HTTP " ++ toString r.status))

/-- `AIService._try_openai` (`ai_service.py` lines 218-266): call the
OpenAI API; on success return the stripped completion with source
`"openai_gpt4o"`, and on a raised exception a failure dict — never
raising. -/
def tryOpenai (env : Env) (prompt : String) : AIResult :=
  match env.openaiApi prompt with
  | .error _ => AIResult.mk false none none (some "openai request failed")
  | .ok content => AIResult.mk true (some (PyStr.strip content)) (some "openai_gpt4o") none

/-- The final-fallback dict of `generate_response` (`ai_service.py`
lines 154-158). -/
def fallbackResult : AIResult :=
  AIResult.mk false
    (some "I'm having trouble processing your message right now. Please try again in a moment.")
    (some "fallback") none

/-- The direct AI fallback of `generate_response` (`ai_service.py` lines
136-158): try the local endpoint with the raw message, then — if an
OpenAI client is configured — the OpenAI API, and if nothing succeeded
return the fixed fallback dict. `tr` is the trace of attempts already
made. -/
def directFallback (env : Env) (message : String) (tr : List Event) : AIResult × List Event :=
  let lr := tryLocalAI env message
  if lr.success then (lr, tr ++ [Event.localCall message])
  else if env.openaiConfigured then
    let og := tryOpenai env message
    if og.success then (og, tr ++ [Event.localCall message, Event.openaiCall message])
    else (fallbackResult, tr ++ [Event.localCall message, Event.openaiCall message])
  else (fallbackResult, tr ++ [Event.localCall message])

/-- `AIService.generate_response` (`ai_service.py` lines 70-158),
returning the result dict together with the trace of backend attempts.
If the reasoning layer raised, the `except` at line 148 catches it and —
since the direct-fallback block at lines 136-146 sits inside the same
`try` and was already skipped — control reaches the final fallback with
no backend attempt made. Otherwise, when the reasoning dict carries a
truthy `"response"`, the local endpoint is tried with it, then (if
configured) OpenAI, and remaining failures continue into the direct
fallback with the raw message. The success dicts are returned with the
reasoning metadata merged in, which leaves `success`, `response` and
`source` unchanged; the merge is not modelled. -/
def generateResponse (env : Env) (message : String) : AIResult × List Event :=
  match env.reasoning with
  | .exn => (fallbackResult, [])
  | .ok ro =>
    match ro with
    | none => directFallback env message []
    | some r =>
      if r = "" then directFallback env message []
      else
        let lr := tryLocalAI env r
        if lr.success then (lr, [Event.localCall r])
        else if env.openaiConfigured then
          let og := tryOpenai env r
          if og.success then (og, [Event.localCall r, Event.openaiCall r])
          else directFallback env message [Event.localCall r, Event.openaiCall r]
        else directFallback env message [Event.localCall r]

end AISvc

namespace Gateway

/-- The pipeline stages of the text-message path
(`telegram_gateway._handle_message` / `_process_text_message` and the
services they call). `costGuard` is included so that its absence from
the produced traces can be stated. -/
inductive Stage
  | rateLimit
  | costGuard
  | memStore
  | memRetrieve
  | reasoningClassify
  | promptBuild
  | llmCall
  | memPersist
deriving DecidableEq

/-- Environment of one incoming text message: the result of the
gateway's `_check_rate_limit` and the AI-service environment. -/
structure GEnv where
  rateOk : Bool
  ai : AISvc.Env

/-- The stages contributed by `ai_service.generate_response`: in the
non-exceptional path `_determine_reasoning_type` runs inside
`analyze_context` before any backend attempt, and each backend attempt
formats its prompt (`_format_for_local_model` / `_format_for_openai`)
immediately before its HTTP call. If the reasoning layer raised, no
classification or backend attempt happens. -/
def aiStages (env : AISvc.Env) (message : String) : List Stage :=
  match env.reasoning with
  | .exn => []
  | .ok _ =>
    Stage.reasoningClassify ::
      (AISvc.generateResponse env message).2.flatMap
        (fun _ => [Stage.promptBuild, Stage.llmCall])

/-- `TelegramGateway._process_text_message` (`telegram_gateway.py` lines
1020-1065): store the user message (`store_memory`,
`interaction_type="user_message"`), fetch recent context
(`get_recent_context`), run `generate_response`, and store the bot
response only when the AI result was successful. -/
def processTextMessage (env : AISvc.Env) (message : String) : List Stage :=
  Stage.memStore :: Stage.memRetrieve ::
    (aiStages env message ++
      if (AISvc.generateResponse env message).1.success then [Stage.memPersist] else [])

/-- `TelegramGateway._handle_message` (`telegram_gateway.py` lines
852-862): check the rate limit first and, if it refuses, reply with a
wait message and return without touching any later stage; otherwise run
`_process_text_message`. -/
def handleMessage (genv : GEnv) (message : String) : List Stage :=
  if genv.rateOk then Stage.rateLimit :: processTextMessage genv.ai message
  else [Stage.rateLimit]

end Gateway

namespace ModelMgr

/-- Program counter of one asyncio task running
`ModelManager.get_embedding_model` for a fixed model name. The atomic
steps are the stretches between suspension points of the coroutine:
the pre-lock cache check (lines 35-41), acquiring the per-name lock,
the post-lock re-check (lines 45-46), the synchronous load sequence
(the local-path attempts at lines 50-66 and the download at lines
69-75, which either produces a model or raises), and the cache store
plus lock release (lines 78-81). `done v` holds the value a finished
call returned; `failed` marks a call whose load raised — the `raise`
at line 75 leaves the `async with`, releasing the lock with the cache
still unset, and propagates to the caller. -/
inductive PC
  | start
  | waiting
  | locked
  | storing
  | failed
  | done : ℕ → PC
deriving DecidableEq

/-- The handle produced by a successful load; the load is a fixed
computation, so it is one abstract value. -/
def modelValue : ℕ := 0

/-- Shared state of `n` concurrent `get_embedding_model` calls for one
model name: `cache` is `self._models.get(model_name)`, `lock` whether
`self._loading_locks[model_name]` is held, `loads` how many load
sequences have run the `SentenceTransformer` constructor (each
critical-section load sequence is counted once; the real code may run
the constructor several times inside one sequence, which only
increases the count), `okLoads` how many of them succeeded, and `pc`
each task's position. -/
structure St (n : ℕ) where
  cache : Option ℕ
  lock : Bool
  loads : ℕ
  okLoads : ℕ
  pc : Fin n → PC

/-- Initial state: empty cache, free lock, no loads, all tasks at the
top of `get_embedding_model`. -/
def init (n : ℕ) : St n :=
  St.mk none false 0 0 (fun _ => PC.start)

/-- One interleaving step of task `i` under asyncio's cooperative
scheduling (`model_manager.py` lines 33-81). The load sequence has two
outcomes: `loadOk` (some `SentenceTransformer(...)` call returned a
model, which will be cached) and `loadErr` (every attempt raised; the
final `raise` releases the lock and the call ends in `failed`). -/
inductive Step {n : ℕ} : St n → St n → Prop
  | checkHit (s : St n) (i : Fin n) (v : ℕ) :
      s.pc i = PC.start → s.cache = some v →
      Step s (St.mk s.cache s.lock s.loads s.okLoads
        (Function.update s.pc i (PC.done v)))
  | checkMiss (s : St n) (i : Fin n) :
      s.pc i = PC.start → s.cache = none →
      Step s (St.mk s.cache s.lock s.loads s.okLoads
        (Function.update s.pc i PC.waiting))
  | acquire (s : St n) (i : Fin n) :
      s.pc i = PC.waiting → s.lock = false →
      Step s (St.mk s.cache true s.loads s.okLoads
        (Function.update s.pc i PC.locked))
  | recheckHit (s : St n) (i : Fin n) (v : ℕ) :
      s.pc i = PC.locked → s.cache = some v →
      Step s (St.mk s.cache false s.loads s.okLoads
        (Function.update s.pc i (PC.done v)))
  | loadOk (s : St n) (i : Fin n) :
      s.pc i = PC.locked → s.cache = none →
      Step s (St.mk s.cache s.lock (s.loads + 1) (s.okLoads + 1)
        (Function.update s.pc i PC.storing))
  | loadErr (s : St n) (i : Fin n) :
      s.pc i = PC.locked → s.cache = none →
      Step s (St.mk s.cache false (s.loads + 1) s.okLoads
        (Function.update s.pc i PC.failed))
  | store (s : St n) (i : Fin n) :
      s.pc i = PC.storing →
      Step s (St.mk (some modelValue) false s.loads s.okLoads
        (Function.update s.pc i (PC.done modelValue)))

/-- States reachable from the initial state by any interleaving. -/
def Reachable (n : ℕ) : St n → Prop :=
  Relation.ReflTransGen (fun s t => Step s t) (init n)

end ModelMgr

namespace Reasoning

/-- Python's substring test `needle in hay`. -/
def strContains (hay needle : String) : Bool :=
  decide (needle.data <:+: hay.data)

/-- `analytical_keywords` (`reasoning_service.py` line 163). -/
def analytical_keywords : List String :=
  ["analyze", "explain", "why", "how", "because", "reason"]

/-- `creative_keywords` (`reasoning_service.py` line 164). -/
def creative_keywords : List String :=
  ["create", "imagine", "design", "brainstorm", "innovative"]

/-- `logical_keywords` (`reasoning_service.py` line 165). -/
def logical_keywords : List String :=
  ["if", "then", "therefore", "conclude", "prove", "logic"]

/-- `critical_keywords` (`reasoning_service.py` line 166). -/
def critical_keywords : List String :=
  ["evaluate", "judge", "critique", "assess", "compare"]

/-- The five declared reasoning type labels
(`ReasoningService.reasoning_types`, `reasoning_service.py` lines
21-27). -/
def reasoningTypeLabels : List String :=
  ["analytical", "creative", "logical", "intuitive", "critical"]

/-- `sum(1 for kw in keywords if kw in message_lower)`: the number of
keywords of the list occurring in the lowercased message. -/
def keywordScore (keywords : List String) (messageLower : String) : ℕ :=
  (keywords.filter (fun kw => strContains messageLower kw)).length

/-- `ReasoningService._determine_reasoning_type` (`reasoning_service.py`
lines 159-179): score the four keyword lists against the lowercased
message and return `max(scores, key=scores.get)` — the first label in
dict insertion order `analytical, creative, logical, critical` whose
score equals the maximum — when some keyword matched, else
`"analytical"`. -/
def determineReasoningType (message : String) : String :=
  let m := PyStr.lower message
  let a := keywordScore analytical_keywords m
  let c := keywordScore creative_keywords m
  let l := keywordScore logical_keywords m
  let cr := keywordScore critical_keywords m
  let best := max a (max c (max l cr))
  if 0 < best then
    if a = best then "analytical"
    else if c = best then "creative"
    else if l = best then "logical"
    else "critical"
  else "analytical"

/-- The maximum of the four keyword scores of a message. -/
def bestScore (message : String) : ℕ :=
  let m := PyStr.lower message
  max (keywordScore analytical_keywords m)
    (max (keywordScore creative_keywords m)
      (max (keywordScore logical_keywords m) (keywordScore critical_keywords m)))

/-- The keyword score the returned label stands for (`0` on any string
that is not one of the four returnable labels). -/
def scoreOfLabel (message label : String) : ℕ :=
  let m := PyStr.lower message
  if label = "analytical" then keywordScore analytical_keywords m
  else if label = "creative" then keywordScore creative_keywords m
  else if label = "logical" then keywordScore logical_keywords m
  else if label = "critical" then keywordScore critical_keywords m
  else 0

/-- `message.count('?')`: the occurrences of the single character `?`. -/
def countQM (message : String) : ℕ :=
  (message.data.filter (fun ch => ch = '?')).length

/-- `technical_indicators` (`reasoning_service.py` line 211). -/
def technical_indicators : List String :=
  ["api", "database", "algorithm", "function", "class", "method"]

/-- One entry of the conversation-context list; `_calculate_complexity`
and `_calculate_confidence` use only the number of entries. -/
structure RMsg where
  content : String

/-- One retrieved memory; `_calculate_confidence` uses only the count. -/
structure Mem where
  text : String

/-- `ReasoningService._calculate_complexity` (`reasoning_service.py`
lines 199-217): capped contributions from message length, question
marks, technical indicator terms and context length, the sum capped at
`1.0`. -/
def calculateComplexity (message : String) (context : List RMsg) : ℚ :=
  let s1 : ℚ := min ((message.length : ℚ) / 500) 0.3
  let s2 : ℚ := min ((countQM message : ℚ) * 0.1) 0.2
  let s3 : ℚ :=
    min (((technical_indicators.filter
      (fun term => strContains (PyStr.lower message) term)).length : ℚ) * 0.1) 0.2
  let s4 : ℚ := min ((context.length : ℚ) * 0.05) 0.3
  min (s1 + s2 + s3 + s4) 1

/-- `ReasoningService._calculate_confidence` (`reasoning_service.py`
lines 219-230): base `0.5` plus capped contributions from context and
memories, the sum capped at `1.0`. -/
def calculateConfidence (context : List RMsg) (memories : List Mem) : ℚ :=
  min (0.5 + min ((context.length : ℚ) * 0.1) 0.3
    + min ((memories.length : ℚ) * 0.05) 0.2) 1

/-- The reasoning strategy picked by `reason_and_respond`
(`reasoning_service.py` lines 95-106). -/
inductive Strategy
  | deep
  | structured
  | quick
deriving DecidableEq

/-- The strategy dispatch of `reason_and_respond`: deep above `0.8`,
structured above `0.5`, quick otherwise. -/
def chooseStrategy (complexity : ℚ) : Strategy :=
  if complexity > 0.8 then Strategy.deep
  else if complexity > 0.5 then Strategy.structured
  else Strategy.quick

end Reasoning

namespace RateLimit

/-- `self.limits.get(limit_type, 1)` (`rate_limit.py` lines 17-22, 35):
requests allowed per window for each limit type. -/
def limits (limit_type : String) : ℤ :=
  if limit_type = "user" then 10
  else if limit_type = "global" then 100
  else if limit_type = "voice" then 3
  else if limit_type = "gpt" then 5
  else 1

/-- `self.windows.get(limit_type, 1)` (`rate_limit.py` lines 25-30, 36):
window length in seconds for each limit type. -/
def windows (limit_type : String) : ℤ :=
  if limit_type = "user" then 60
  else if limit_type = "global" then 60
  else if limit_type = "voice" then 60
  else if limit_type = "gpt" then 60
  else 1

end RateLimit

namespace ModelMgr

/-- Task `i` is inside the lock-protected critical section. -/
def crit {n : ℕ} (s : St n) (i : Fin n) : Prop :=
  s.pc i = PC.locked ∨ s.pc i = PC.storing

/-- The protocol invariant of the double-checked locking in
`get_embedding_model`: the lock is held whenever someone is in the
critical section, the critical section holds at most one task, the
cache only ever holds the loaded handle, a finished task returned the
cached handle, at most one successful load has run, no successful load
has run while the cache is empty and nobody is mid-store, and the
cache is still empty while a store is pending. The failing-load count
`loads` is deliberately unconstrained: failed loads repeat. -/
def Inv {n : ℕ} (s : St n) : Prop :=
  (∀ i, crit s i → s.lock = true) ∧
  (∀ i j, crit s i → crit s j → i = j) ∧
  (∀ v, s.cache = some v → v = modelValue) ∧
  (∀ i v, s.pc i = PC.done v → v = modelValue ∧ s.cache = some modelValue) ∧
  s.okLoads ≤ 1 ∧
  ((s.cache = none ∧ ∀ i, s.pc i ≠ PC.storing) → s.okLoads = 0) ∧
  (∀ i, s.pc i = PC.storing → s.cache = none)

end ModelMgr

/-!  Theorems. -/

/-- C2: `CostGuard.check_budget` returns `(False, message)` iff one of
the four running totals plus the estimated cost exceeds its static
threshold — user daily ₹50, user monthly ₹500, global daily ₹5000,
global monthly ₹20000 — checked in that order with the first violated
limit reported, and returns `(True, "Budget available")` otherwise. -/
theorem c2_check_budget_thresholds (c : CostGuard.Costs) (e : ℚ) :
    ((CostGuard.check_budget c e).1 = false ↔
      (c.user_daily + e > CostGuard.daily_user ∨
       c.user_monthly + e > CostGuard.monthly_user ∨
       c.global_daily + e > CostGuard.daily_global ∨
       c.global_monthly + e > CostGuard.monthly_global)) ∧
    (c.user_daily + e > CostGuard.daily_user →
      CostGuard.check_budget c e = (false, "Daily limit exceeded (₹50.0)")) ∧
    (¬(c.user_daily + e > CostGuard.daily_user) →
      c.user_monthly + e > CostGuard.monthly_user →
      CostGuard.check_budget c e = (false, "Monthly limit exceeded (₹500.0)")) ∧
    (¬(c.user_daily + e > CostGuard.daily_user) →
      ¬(c.user_monthly + e > CostGuard.monthly_user) →
      c.global_daily + e > CostGuard.daily_global →
      CostGuard.check_budget c e = (false, "System daily limit exceeded")) ∧
    (¬(c.user_daily + e > CostGuard.daily_user) →
      ¬(c.user_monthly + e > CostGuard.monthly_user) →
      ¬(c.global_daily + e > CostGuard.daily_global) →
      c.global_monthly + e > CostGuard.monthly_global →
      CostGuard.check_budget c e = (false, "System monthly limit exceeded")) ∧
    (¬(c.user_daily + e > CostGuard.daily_user) →
      ¬(c.user_monthly + e > CostGuard.monthly_user) →
      ¬(c.global_daily + e > CostGuard.daily_global) →
      ¬(c.global_monthly + e > CostGuard.monthly_global) →
      CostGuard.check_budget c e = (true, "Budget available")) := by
  unfold CostGuard.check_budget
  split_ifs with h1 h2 h3 h4 <;> simp_all

/-- Witness for C2 at a concrete input: with a user daily total of ₹49
and an estimate of ₹2 the first threshold is violated and reported. -/
theorem c2_check_budget_thresholds_witness :
    CostGuard.check_budget ⟨49, 0, 0, 0⟩ 2 = (false, "Daily limit exceeded (₹50.0)") :=
  (c2_check_budget_thresholds ⟨49, 0, 0, 0⟩ 2).2.1
    (by norm_num [CostGuard.daily_user])

/-- C8 counterexample: when the Redis read raises, `get_current_costs`
swallows the error into zero running totals, and `check_budget` with a
₹1 estimate reports the budget as available — the cost guard fails
open, not closed as claimed, and the `(False, "Budget check failed")`
denial is not produced for a store error. -/
theorem c8_fail_open_counterexample :
    CostGuard.checkBudgetTotal (Except.error ()) 1 = (true, "Budget available") := by
  norm_num [CostGuard.checkBudgetTotal, CostGuard.getCurrentCosts,
    CostGuard.check_budget, CostGuard.daily_user, CostGuard.monthly_user,
    CostGuard.daily_global, CostGuard.monthly_global]

/-- C8 as amended: both admission checks fail open on a raised Redis
operation and neither propagates the exception — `is_allowed` returns
`True`, while `check_budget` sees the zero totals produced by
`get_current_costs`'s own handler, so it behaves as on a fresh budget:
it answers `(True, "Budget available")` whenever the estimate alone
does not cross a threshold, and its `"Budget check failed"` message is
unreachable for store errors. -/
theorem c8_fail_open_amended (e : ℚ) :
    (∀ limit window now : ℤ,
      RateLimit.isAllowedTotal limit window now (Except.error ()) = true) ∧
    CostGuard.getCurrentCosts (Except.error ()) = CostGuard.Costs.mk 0 0 0 0 ∧
    CostGuard.checkBudgetTotal (Except.error ()) e =
      CostGuard.check_budget (CostGuard.Costs.mk 0 0 0 0) e ∧
    (CostGuard.checkBudgetTotal (Except.error ()) e).2 ≠ "Budget check failed" ∧
    (e ≤ CostGuard.daily_user →
      CostGuard.checkBudgetTotal (Except.error ()) e = (true, "Budget available")) := by
  refine ⟨fun _ _ _ => rfl, rfl, rfl, ?_, ?_⟩
  · unfold CostGuard.checkBudgetTotal CostGuard.getCurrentCosts CostGuard.check_budget
    split_ifs <;> decide
  · intro he
    rw [show CostGuard.daily_user = (50 : ℚ) from rfl] at he
    unfold CostGuard.checkBudgetTotal CostGuard.getCurrentCosts CostGuard.check_budget
    split_ifs with h1 h2 h3 h4
    · exfalso
      rw [show CostGuard.daily_user = (50 : ℚ) from rfl] at h1
      simp only at h1
      linarith
    · exfalso
      rw [show CostGuard.monthly_user = (500 : ℚ) from rfl] at h2
      simp only at h2
      linarith
    · exfalso
      rw [show CostGuard.daily_global = (5000 : ℚ) from rfl] at h3
      simp only at h3
      linarith
    · exfalso
      rw [show CostGuard.monthly_global = (20000 : ℚ) from rfl] at h4
      simp only at h4
      linarith
    · rfl

/-- Witness for C8 (amended) at a concrete input: a ₹2 estimate is
within the daily limit and is admitted on a failed store read. -/
theorem c8_fail_open_amended_witness :
    (2 : ℚ) ≤ CostGuard.daily_user ∧
    CostGuard.checkBudgetTotal (Except.error ()) 2 = (true, "Budget available") :=
  ⟨by norm_num [CostGuard.daily_user],
    (c8_fail_open_amended 2).2.2.2.2 (by norm_num [CostGuard.daily_user])⟩

/-- C10: the complexity score lies in `[0, 1]`, the confidence score in
`[0.5, 1]`, and the strategy dispatch of `reason_and_respond` (deep
above 0.8, structured above 0.5, quick otherwise) covers every
reachable complexity value. -/
theorem c10_scores_bounded (message : String) (context : List Reasoning.RMsg)
    (memories : List Reasoning.Mem) :
    (0 ≤ Reasoning.calculateComplexity message context ∧
      Reasoning.calculateComplexity message context ≤ 1) ∧
    ((1 / 2 : ℚ) ≤ Reasoning.calculateConfidence context memories ∧
      Reasoning.calculateConfidence context memories ≤ 1) ∧
    (Reasoning.calculateComplexity message context > 0.8 →
      Reasoning.chooseStrategy (Reasoning.calculateComplexity message context) =
        Reasoning.Strategy.deep) ∧
    (Reasoning.calculateComplexity message context ≤ 0.8 →
      Reasoning.calculateComplexity message context > 0.5 →
      Reasoning.chooseStrategy (Reasoning.calculateComplexity message context) =
        Reasoning.Strategy.structured) ∧
    (Reasoning.calculateComplexity message context ≤ 0.5 →
      Reasoning.chooseStrategy (Reasoning.calculateComplexity message context) =
        Reasoning.Strategy.quick) := by
  have h1 : (0 : ℚ) ≤ min ((message.length : ℚ) / 500) 0.3 :=
    le_min (by positivity) (by norm_num)
  have h2 : (0 : ℚ) ≤ min ((Reasoning.countQM message : ℚ) * 0.1) 0.2 :=
    le_min (by positivity) (by norm_num)
  have h3 : (0 : ℚ) ≤
      min (((Reasoning.technical_indicators.filter
        (fun term => Reasoning.strContains (PyStr.lower message) term)).length : ℚ) * 0.1) 0.2 :=
    le_min (by positivity) (by norm_num)
  have h4 : (0 : ℚ) ≤ min ((context.length : ℚ) * 0.05) 0.3 :=
    le_min (by positivity) (by norm_num)
  have h5 : (0 : ℚ) ≤ min ((context.length : ℚ) * 0.1) 0.3 :=
    le_min (by positivity) (by norm_num)
  have h6 : (0 : ℚ) ≤ min ((memories.length : ℚ) * 0.05) 0.2 :=
    le_min (by positivity) (by norm_num)
  have hc : Reasoning.calculateComplexity message context =
      min (min ((message.length : ℚ) / 500) 0.3
        + min ((Reasoning.countQM message : ℚ) * 0.1) 0.2
        + min (((Reasoning.technical_indicators.filter
            (fun term => Reasoning.strContains (PyStr.lower message) term)).length : ℚ) * 0.1) 0.2
        + min ((context.length : ℚ) * 0.05) 0.3) 1 := rfl
  have hf : Reasoning.calculateConfidence context memories =
      min (0.5 + min ((context.length : ℚ) * 0.1) 0.3
        + min ((memories.length : ℚ) * 0.05) 0.2) 1 := rfl
  refine ⟨⟨?_, ?_⟩, ⟨?_, ?_⟩, ?_, ?_, ?_⟩
  · rw [hc]; exact le_min (by linarith) (by norm_num)
  · rw [hc]; exact min_le_right _ _
  · rw [hf]; exact le_min (by linarith) (by norm_num)
  · rw [hf]; exact min_le_right _ _
  · intro h
    simp only [Reasoning.chooseStrategy, if_pos h]
  · intro hle hgt
    have hne : ¬ Reasoning.calculateComplexity message context > 0.8 := not_lt.mpr hle
    simp only [Reasoning.chooseStrategy, if_neg hne, if_pos hgt]
  · intro hle
    have hq : ¬ Reasoning.calculateComplexity message context > 0.8 :=
      not_lt.mpr (le_trans hle (by norm_num))
    have hs : ¬ Reasoning.calculateComplexity message context > 0.5 := not_lt.mpr hle
    simp only [Reasoning.chooseStrategy, if_neg hq, if_neg hs]

/-- Witness for C10 at a concrete input: the empty message with empty
context and memories scores complexity `0` and confidence `0.5`, and
the dispatch picks the quick strategy. -/
theorem c10_scores_bounded_witness :
    0 ≤ Reasoning.calculateComplexity "" [] ∧
    Reasoning.calculateComplexity "" [] ≤ 0.5 ∧
    Reasoning.chooseStrategy (Reasoning.calculateComplexity "" []) =
      Reasoning.Strategy.quick :=
  ⟨(c10_scores_bounded "" [] []).1.1,
    by norm_num [Reasoning.calculateComplexity, Reasoning.countQM,
      Reasoning.technical_indicators, Reasoning.strContains],
    (c10_scores_bounded "" [] []).2.2.2.2
      (by norm_num [Reasoning.calculateComplexity, Reasoning.countQM,
        Reasoning.technical_indicators, Reasoning.strContains])⟩

/-- C6: `_determine_reasoning_type` classifies by keyword matching only:
it returns one of the four scored labels, the returned label's keyword
score is the maximum of the four scores, `"analytical"` is returned
whenever no keyword matches, and the fifth declared type `"intuitive"`
is never returned. -/
theorem c6_determine_reasoning_type (message : String) :
    (Reasoning.determineReasoningType message = "analytical" ∨
     Reasoning.determineReasoningType message = "creative" ∨
     Reasoning.determineReasoningType message = "logical" ∨
     Reasoning.determineReasoningType message = "critical") ∧
    Reasoning.determineReasoningType message ≠ "intuitive" ∧
    "intuitive" ∈ Reasoning.reasoningTypeLabels ∧
    Reasoning.scoreOfLabel message (Reasoning.determineReasoningType message) =
      Reasoning.bestScore message ∧
    (Reasoning.bestScore message = 0 →
      Reasoning.determineReasoningType message = "analytical") := by
  set m := PyStr.lower message with hm
  set a := Reasoning.keywordScore Reasoning.analytical_keywords m with ha
  set c := Reasoning.keywordScore Reasoning.creative_keywords m with hc
  set l := Reasoning.keywordScore Reasoning.logical_keywords m with hl
  set cr := Reasoning.keywordScore Reasoning.critical_keywords m with hcr
  set best := max a (max c (max l cr)) with hbest
  have hd : Reasoning.determineReasoningType message =
      (if 0 < best then
        if a = best then "analytical"
        else if c = best then "creative"
        else if l = best then "logical"
        else "critical"
      else "analytical") := rfl
  have hb : Reasoning.bestScore message = best := rfl
  have hsA : Reasoning.scoreOfLabel message "analytical" = a := rfl
  have hsC : Reasoning.scoreOfLabel message "creative" = c := rfl
  have hsL : Reasoning.scoreOfLabel message "logical" = l := rfl
  have hsCr : Reasoning.scoreOfLabel message "critical" = cr := rfl
  rw [hd, hb]
  by_cases h0 : 0 < best
  · rw [if_pos h0]
    by_cases hA : a = best
    · rw [if_pos hA]
      exact ⟨Or.inl rfl, by decide, by decide, by rw [hsA, hA], fun h => by omega⟩
    · rw [if_neg hA]
      by_cases hC : c = best
      · rw [if_pos hC]
        exact ⟨Or.inr (Or.inl rfl), by decide, by decide, by rw [hsC, hC],
          fun h => by omega⟩
      · rw [if_neg hC]
        by_cases hL : l = best
        · rw [if_pos hL]
          exact ⟨Or.inr (Or.inr (Or.inl rfl)), by decide, by decide, by rw [hsL, hL],
            fun h => by omega⟩
        · rw [if_neg hL]
          have hCr : cr = best := by omega
          exact ⟨Or.inr (Or.inr (Or.inr rfl)), by decide, by decide, by rw [hsCr, hCr],
            fun h => by omega⟩
  · rw [if_neg h0]
    refine ⟨Or.inl rfl, by decide, by decide, ?_, fun _ => rfl⟩
    rw [hsA]
    omega

/-- Witness for C6 at a concrete input: a message with no keyword at
all is classified `"analytical"` with best score `0`. -/
theorem c6_determine_reasoning_type_witness :
    Reasoning.bestScore "zz" = 0 ∧ Reasoning.determineReasoningType "zz" = "analytical" :=
  ⟨by decide, (c6_determine_reasoning_type "zz").2.2.2.2 (by decide)⟩

/-- C7: `_format_for_openai` builds the system prompt selected by tone
(falling back to the friendly prompt outside
`{"friendly", "formal", "gen-z"}`), followed by the non-empty entries
among the last six context entries — at most six, a subsequence of the
context, each with role `"assistant"` exactly when its
`interaction_type` is `"bot_response"` and `"user"` otherwise — and
ends with the current user message. -/
theorem c7_format_for_openai (message : String) (context : List AISvc.Ctx) (tone : String) :
    (AISvc.formatForOpenai message context tone =
      AISvc.Msg.mk "system" (AISvc.tonePromptOpenai tone) ::
        ((context.drop (context.length - 6)).filter (fun c => AISvc.ctxKeep c)).map
          (fun c => AISvc.Msg.mk (AISvc.roleOf c) (AISvc.ctxText c))
        ++ [AISvc.Msg.mk "user" message]) ∧
    ((context.drop (context.length - 6)).filter (fun c => AISvc.ctxKeep c)).length ≤ 6 ∧
    ((context.drop (context.length - 6)).filter (fun c => AISvc.ctxKeep c)).Sublist context ∧
    (∀ c ∈ (context.drop (context.length - 6)).filter (fun c => AISvc.ctxKeep c),
      AISvc.ctxKeep c = true) ∧
    (∀ c : AISvc.Ctx, AISvc.roleOf c = "assistant" ↔ AISvc.ctxIType c = "bot_response") ∧
    (tone ∉ (["friendly", "formal", "gen-z"] : List String) →
      AISvc.tonePromptOpenai tone = AISvc.friendlyPromptOpenai) := by
  refine ⟨rfl, ?_, ?_, ?_, ?_, ?_⟩
  · exact le_trans (List.length_filter_le _ _) (by rw [List.length_drop]; omega)
  · exact (List.filter_sublist _).trans (List.drop_sublist _ _)
  · exact fun c hc => List.of_mem_filter hc
  · intro c
    unfold AISvc.roleOf
    split_ifs with h
    · simp [h]
    · simp only [h, iff_false]
      decide
  · intro h
    simp only [List.mem_cons, List.mem_singleton, not_or] at h
    obtain ⟨h1, h2, h3, -⟩ := h
    simp [AISvc.tonePromptOpenai, h1, h2, h3]

/-- Witness for C7 at a concrete input: an unknown tone `"casual"` gets
the friendly prompt, a `bot_response` entry becomes an assistant
message, and whitespace-only or absent text is dropped. -/
theorem c7_format_for_openai_witness :
    AISvc.formatForOpenai "hi"
        [AISvc.Ctx.mk (some "a") (some "bot_response"),
         AISvc.Ctx.mk (some " ") none, AISvc.Ctx.mk none none] "casual" =
      [AISvc.Msg.mk "system" AISvc.friendlyPromptOpenai,
       AISvc.Msg.mk "assistant" "a", AISvc.Msg.mk "user" "hi"] := by
  have h := c7_format_for_openai "hi"
    [AISvc.Ctx.mk (some "a") (some "bot_response"),
     AISvc.Ctx.mk (some " ") none, AISvc.Ctx.mk none none] "casual"
  rw [h.1, h.2.2.2.2.2 (by decide)]
  rfl


/-- The direct-fallback block appends a local attempt with the raw
message and afterwards at most one OpenAI attempt, which presupposes a
configured client and the failed local attempt. -/
theorem AISvc.directFallback_trace_eq (env : AISvc.Env) (m : String) (tr : List AISvc.Event) :
    ∃ rest, (AISvc.directFallback env m tr).2 = tr ++ AISvc.Event.localCall m :: rest ∧
      ∀ p, AISvc.Event.openaiCall p ∈ rest →
        p = m ∧ env.openaiConfigured = true ∧ (AISvc.tryLocalAI env m).success = false := by
  cases hl : (AISvc.tryLocalAI env m).success with
  | true => exact ⟨[], by simp [AISvc.directFallback, hl], by simp⟩
  | false =>
    cases hc : env.openaiConfigured with
    | false => exact ⟨[], by simp [AISvc.directFallback, hl, hc], by simp⟩
    | true =>
      cases ho : (AISvc.tryOpenai env m).success with
      | true =>
        refine ⟨[AISvc.Event.openaiCall m],
          by simp [AISvc.directFallback, hl, hc, ho], ?_⟩
        intro p hp
        simp only [List.mem_singleton, AISvc.Event.openaiCall.injEq] at hp
        exact ⟨hp, rfl, rfl⟩
      | false =>
        refine ⟨[AISvc.Event.openaiCall m],
          by simp [AISvc.directFallback, hl, hc, ho], ?_⟩
        intro p hp
        simp only [List.mem_singleton, AISvc.Event.openaiCall.injEq] at hp
        exact ⟨hp, rfl, rfl⟩

/-- The direct-fallback block either returns a successful backend dict
or exactly the fixed fallback dict. -/
theorem AISvc.directFallback_result (env : AISvc.Env) (m : String) (tr : List AISvc.Event) :
    (AISvc.directFallback env m tr).1.success = true ∨
    (AISvc.directFallback env m tr).1 = AISvc.fallbackResult := by
  cases hl : (AISvc.tryLocalAI env m).success with
  | true => exact Or.inl (by simp [AISvc.directFallback, hl])
  | false =>
    cases hc : env.openaiConfigured with
    | false => exact Or.inr (by simp [AISvc.directFallback, hl, hc])
    | true =>
      cases ho : (AISvc.tryOpenai env m).success with
      | true => exact Or.inl (by simp [AISvc.directFallback, hl, hc, ho])
      | false => exact Or.inr (by simp [AISvc.directFallback, hl, hc, ho])

/-- When the local attempt on the raw message fails and OpenAI is
unavailable or fails, the direct-fallback block returns the fixed
fallback dict. -/
theorem AISvc.directFallback_fail (env : AISvc.Env) (m : String) (tr : List AISvc.Event)
    (hl : (AISvc.tryLocalAI env m).success = false)
    (ho : env.openaiConfigured = false ∨ (AISvc.tryOpenai env m).success = false) :
    (AISvc.directFallback env m tr).1 = AISvc.fallbackResult := by
  rcases ho with ho | ho
  · simp [AISvc.directFallback, hl, ho]
  · cases hc : env.openaiConfigured with
    | false => simp [AISvc.directFallback, hl, hc]
    | true => simp [AISvc.directFallback, hl, hc, ho]

/-- A successful `_try_local_ai` dict carries a response string. -/
theorem AISvc.tryLocalAI_success_response (env : AISvc.Env) (p : String)
    (h : (AISvc.tryLocalAI env p).success = true) :
    (AISvc.tryLocalAI env p).response.isSome = true := by
  rcases henv : env.http p with e | r
  · simp [AISvc.tryLocalAI, henv] at h
  · by_cases hs : r.status = 200
    · simp [AISvc.tryLocalAI, henv, hs]
    · simp [AISvc.tryLocalAI, henv, hs] at h

/-- A successful `_try_openai` dict carries a response string. -/
theorem AISvc.tryOpenai_success_response (env : AISvc.Env) (p : String)
    (h : (AISvc.tryOpenai env p).success = true) :
    (AISvc.tryOpenai env p).response.isSome = true := by
  rcases henv : env.openaiApi p with e | content
  · simp [AISvc.tryOpenai, henv] at h
  · simp [AISvc.tryOpenai, henv]

/-- The direct-fallback block's result always carries a response
string. -/
theorem AISvc.directFallback_response (env : AISvc.Env) (m : String) (tr : List AISvc.Event) :
    (AISvc.directFallback env m tr).1.response.isSome = true := by
  cases hl : (AISvc.tryLocalAI env m).success with
  | true =>
    have := AISvc.tryLocalAI_success_response env m hl
    simpa [AISvc.directFallback, hl] using this
  | false =>
    cases hc : env.openaiConfigured with
    | false => simp [AISvc.directFallback, hl, hc, AISvc.fallbackResult]
    | true =>
      cases ho : (AISvc.tryOpenai env m).success with
      | true =>
        have := AISvc.tryOpenai_success_response env m ho
        simpa [AISvc.directFallback, hl, hc, ho] using this
      | false => simp [AISvc.directFallback, hl, hc, ho, AISvc.fallbackResult]

/-- Shared shape of `generate_response` when it reduces to the
direct-fallback block with no prior attempts: the first attempt is the
local endpoint, any OpenAI attempt needs a configured client and a
failed local attempt, and if everything fails the fixed fallback dict
is returned. -/
theorem AISvc.genRespOfDfNil (env : AISvc.Env) (message : String)
    (hg : AISvc.generateResponse env message = AISvc.directFallback env message []) :
    (∀ e tl, (AISvc.generateResponse env message).2 = e :: tl →
      ∃ p, e = AISvc.Event.localCall p) ∧
    (∀ p, AISvc.Event.openaiCall p ∈ (AISvc.generateResponse env message).2 →
      env.openaiConfigured = true ∧ (AISvc.tryLocalAI env p).success = false) ∧
    ((∀ q, (AISvc.tryLocalAI env q).success = false) →
      (env.openaiConfigured = false ∨ ∀ q, (AISvc.tryOpenai env q).success = false) →
      (AISvc.generateResponse env message).1 = AISvc.fallbackResult) := by
  obtain ⟨rest, h2, h3⟩ := AISvc.directFallback_trace_eq env message []
  rw [List.nil_append] at h2
  refine ⟨?_, ?_, ?_⟩
  · intro e tl h
    rw [hg, h2] at h
    injection h with hhead _
    exact ⟨message, hhead.symm⟩
  · intro p hp
    rw [hg, h2] at hp
    rcases List.mem_cons.mp hp with heq | hrest
    · exact absurd heq (by simp)
    · obtain ⟨hpm, hcc, hfail⟩ := h3 p hrest
      exact ⟨hcc, hpm ▸ hfail⟩
  · intro hL hO
    rw [hg]
    exact AISvc.directFallback_fail env message [] (hL message)
      (hO.imp id (fun h => h message))

/-- C3: `generate_response` tries the local inference endpoint before
the hosted API: the first backend attempt of any run is a local call,
an OpenAI call on a prompt happens only when an OpenAI client is
configured and the local attempt on that same prompt failed, and when
every attempt fails the result is the fixed apology dict with
`success=False` and `source="fallback"`. -/
theorem c3_local_before_openai (env : AISvc.Env) (message : String) :
    (∀ e tl, (AISvc.generateResponse env message).2 = e :: tl →
      ∃ p, e = AISvc.Event.localCall p) ∧
    (∀ p, AISvc.Event.openaiCall p ∈ (AISvc.generateResponse env message).2 →
      env.openaiConfigured = true ∧ (AISvc.tryLocalAI env p).success = false) ∧
    ((∀ q, (AISvc.tryLocalAI env q).success = false) →
      (env.openaiConfigured = false ∨ ∀ q, (AISvc.tryOpenai env q).success = false) →
      (AISvc.generateResponse env message).1 = AISvc.fallbackResult) := by
  rcases hr : env.reasoning with _ | ro
  · refine ⟨?_, ?_, ?_⟩ <;> simp [AISvc.generateResponse, hr]
  · rcases ro with _ | r
    · exact AISvc.genRespOfDfNil env message (by simp [AISvc.generateResponse, hr])
    · by_cases hremp : r = ""
      · exact AISvc.genRespOfDfNil env message
          (by simp [AISvc.generateResponse, hr, hremp])
      · cases hl : (AISvc.tryLocalAI env r).success with
        | true =>
          have hg : AISvc.generateResponse env message =
              (AISvc.tryLocalAI env r, [AISvc.Event.localCall r]) := by
            simp [AISvc.generateResponse, hr, hremp, hl]
          refine ⟨?_, ?_, ?_⟩
          · intro e tl h
            rw [hg] at h
            injection h with hhead _
            exact ⟨r, hhead.symm⟩
          · intro p hp
            rw [hg] at hp
            simp at hp
          · intro hL _
            exact absurd (hL r) (by simp [hl])
        | false =>
          cases hc : env.openaiConfigured with
          | true =>
            cases ho : (AISvc.tryOpenai env r).success with
            | true =>
              have hg : AISvc.generateResponse env message =
                  (AISvc.tryOpenai env r,
                    [AISvc.Event.localCall r, AISvc.Event.openaiCall r]) := by
                simp [AISvc.generateResponse, hr, hremp, hl, hc, ho]
              refine ⟨?_, ?_, ?_⟩
              · intro e tl h
                rw [hg] at h
                injection h with hhead _
                exact ⟨r, hhead.symm⟩
              · intro p hp
                rw [hg] at hp
                rcases List.mem_cons.mp hp with heq | hp2
                · exact absurd heq (by simp)
                · simp only [List.mem_singleton, AISvc.Event.openaiCall.injEq] at hp2
                  exact ⟨rfl, hp2 ▸ hl⟩
              · intro hL hO
                rcases hO with hO | hO
                · simp at hO
                · exact absurd (hO r) (by simp [ho])
            | false =>
              have hg : AISvc.generateResponse env message =
                  AISvc.directFallback env message
                    [AISvc.Event.localCall r, AISvc.Event.openaiCall r] := by
                simp [AISvc.generateResponse, hr, hremp, hl, hc, ho]
              obtain ⟨rest, h2, h3⟩ :=
                AISvc.directFallback_trace_eq env message
                  [AISvc.Event.localCall r, AISvc.Event.openaiCall r]
              refine ⟨?_, ?_, ?_⟩
              · intro e tl h
                rw [hg, h2] at h
                injection h with hhead _
                exact ⟨r, hhead.symm⟩
              · intro p hp
                rw [hg, h2] at hp
                rcases List.mem_append.mp hp with hpre | hsuf
                · have hpr : p = r := by simpa using hpre
                  exact ⟨rfl, hpr ▸ hl⟩
                · rcases List.mem_cons.mp hsuf with heq | hp3
                  · exact absurd heq (by simp)
                  · obtain ⟨hpm, hcc, hfail⟩ := h3 p hp3
                    exact ⟨rfl, hpm ▸ hfail⟩
              · intro hL hO
                rw [hg]
                refine AISvc.directFallback_fail env message _ (hL message) ?_
                rcases hO with hO | hO
                · simp at hO
                · exact Or.inr (hO message)
          | false =>
            have hg : AISvc.generateResponse env message =
                AISvc.directFallback env message [AISvc.Event.localCall r] := by
              simp [AISvc.generateResponse, hr, hremp, hl, hc]
            obtain ⟨rest, h2, h3⟩ :=
              AISvc.directFallback_trace_eq env message [AISvc.Event.localCall r]
            refine ⟨?_, ?_, ?_⟩
            · intro e tl h
              rw [hg, h2] at h
              injection h with hhead _
              exact ⟨r, hhead.symm⟩
            · intro p hp
              rw [hg, h2] at hp
              rcases List.mem_append.mp hp with hpre | hsuf
              · simp at hpre
              · rcases List.mem_cons.mp hsuf with heq | hp3
                · exact absurd heq (by simp)
                · obtain ⟨hpm, hcc, hfail⟩ := h3 p hp3
                  exact absurd hcc (by simp [hc])
            · intro hL hO
              rw [hg]
              exact AISvc.directFallback_fail env message _ (hL message) (Or.inl hc)

/-- Witness for C3 at a concrete input: with the local endpoint down
(HTTP 500), no OpenAI client and a quick-reasoning response equal to
the message, the run makes a local attempt first and returns the fixed
fallback dict. -/
theorem c3_local_before_openai_witness :
    (AISvc.generateResponse
      (AISvc.Env.mk (AISvc.ReasoningOutcome.ok (some "hi"))
        (fun _ => Except.ok (AISvc.HttpResp.mk 500 "")) false
        (fun _ => Except.error ())) "hi").1 = AISvc.fallbackResult :=
  (c3_local_before_openai
    (AISvc.Env.mk (AISvc.ReasoningOutcome.ok (some "hi"))
      (fun _ => Except.ok (AISvc.HttpResp.mk 500 "")) false
      (fun _ => Except.error ())) "hi").2.2
    (fun q => by simp [AISvc.tryLocalAI]) (Or.inl rfl)

/-- C9: `generate_response` is total at its interface: its result always
carries the `success` flag and a `response` string, an unsuccessful
outcome is exactly the fixed apology dict with `source="fallback"`, and
an exception raised by the reasoning layer is caught and turned into
that dict with no backend attempt (backend exceptions are already
absorbed inside `_try_local_ai` / `_try_openai`). -/
theorem c9_generate_response_total (env : AISvc.Env) (message : String) :
    ((AISvc.generateResponse env message).1.success = true ∨
      (AISvc.generateResponse env message).1 = AISvc.fallbackResult) ∧
    ((AISvc.generateResponse env message).1.response.isSome = true) ∧
    (env.reasoning = AISvc.ReasoningOutcome.exn →
      AISvc.generateResponse env message = (AISvc.fallbackResult, [])) := by
  rcases hr : env.reasoning with _ | ro
  · refine ⟨Or.inr ?_, ?_, fun _ => ?_⟩ <;>
      simp [AISvc.generateResponse, hr, AISvc.fallbackResult]
  · rcases ro with _ | r
    · have hg : AISvc.generateResponse env message =
          AISvc.directFallback env message [] := by
        simp [AISvc.generateResponse, hr]
      rw [hg]
      exact ⟨AISvc.directFallback_result env message [],
        AISvc.directFallback_response env message [], fun h => AISvc.ReasoningOutcome.noConfusion h⟩
    · by_cases hremp : r = ""
      · have hg : AISvc.generateResponse env message =
            AISvc.directFallback env message [] := by
          simp [AISvc.generateResponse, hr, hremp]
        rw [hg]
        exact ⟨AISvc.directFallback_result env message [],
          AISvc.directFallback_response env message [], fun h => AISvc.ReasoningOutcome.noConfusion h⟩
      · cases hl : (AISvc.tryLocalAI env r).success with
        | true =>
          have hg : AISvc.generateResponse env message =
              (AISvc.tryLocalAI env r, [AISvc.Event.localCall r]) := by
            simp [AISvc.generateResponse, hr, hremp, hl]
          rw [hg]
          exact ⟨Or.inl hl, AISvc.tryLocalAI_success_response env r hl,
            fun h => AISvc.ReasoningOutcome.noConfusion h⟩
        | false =>
          cases hc : env.openaiConfigured with
          | true =>
            cases ho : (AISvc.tryOpenai env r).success with
            | true =>
              have hg : AISvc.generateResponse env message =
                  (AISvc.tryOpenai env r,
                    [AISvc.Event.localCall r, AISvc.Event.openaiCall r]) := by
                simp [AISvc.generateResponse, hr, hremp, hl, hc, ho]
              rw [hg]
              exact ⟨Or.inl ho, AISvc.tryOpenai_success_response env r ho,
                fun h => AISvc.ReasoningOutcome.noConfusion h⟩
            | false =>
              have hg : AISvc.generateResponse env message =
                  AISvc.directFallback env message
                    [AISvc.Event.localCall r, AISvc.Event.openaiCall r] := by
                simp [AISvc.generateResponse, hr, hremp, hl, hc, ho]
              rw [hg]
              exact ⟨AISvc.directFallback_result env message _,
                AISvc.directFallback_response env message _, fun h => AISvc.ReasoningOutcome.noConfusion h⟩
          | false =>
            have hg : AISvc.generateResponse env message =
                AISvc.directFallback env message [AISvc.Event.localCall r] := by
              simp [AISvc.generateResponse, hr, hremp, hl, hc]
            rw [hg]
            exact ⟨AISvc.directFallback_result env message _,
              AISvc.directFallback_response env message _, fun h => AISvc.ReasoningOutcome.noConfusion h⟩

/-- Witness for C9 at a concrete input: a reasoning-layer exception is
caught and yields exactly the fallback dict with no backend attempt. -/
theorem c9_generate_response_total_witness :
    AISvc.generateResponse
        (AISvc.Env.mk AISvc.ReasoningOutcome.exn
          (fun _ => Except.error ()) false (fun _ => Except.error ())) "hello" =
      (AISvc.fallbackResult, []) :=
  (c9_generate_response_total
    (AISvc.Env.mk AISvc.ReasoningOutcome.exn
      (fun _ => Except.error ()) false (fun _ => Except.error ())) "hello").2.2 rfl

/-- No stage list produced by the AI service contains the cost-guard
stage. -/
theorem Gateway.costGuard_not_mem_aiStages (env : AISvc.Env) (message : String) :
    Gateway.Stage.costGuard ∉ Gateway.aiStages env message := by
  rcases hr : env.reasoning with _ | ro
  · simp [Gateway.aiStages, hr]
  · simp [Gateway.aiStages, hr, List.mem_flatMap]

/-- Inside the AI service an LLM call only happens after the reasoning
classification. -/
theorem Gateway.llmCall_implies_classify (env : AISvc.Env) (message : String)
    (h : Gateway.Stage.llmCall ∈ Gateway.aiStages env message) :
    Gateway.Stage.reasoningClassify ∈ Gateway.aiStages env message := by
  rcases hr : env.reasoning with _ | ro
  · simp [Gateway.aiStages, hr] at h
  · simp only [Gateway.aiStages, hr]
    exact List.mem_cons_self _ _

/-- C4 counterexample: a concrete message that passes rate limiting
runs through the whole gateway pipeline — user-message store, context
retrieval, reasoning classification, prompt construction, LLM call,
bot-response store — without ever reaching a cost-guard stage, refuting
the claimed rate limiting → cost guarding → … order. -/
theorem c4_pipeline_counterexample :
    Gateway.handleMessage
        (Gateway.GEnv.mk true
          (AISvc.Env.mk (AISvc.ReasoningOutcome.ok (some "hi"))
            (fun _ => Except.ok (AISvc.HttpResp.mk 200 "ok")) false
            (fun _ => Except.error ()))) "hello" =
      [Gateway.Stage.rateLimit, Gateway.Stage.memStore, Gateway.Stage.memRetrieve,
       Gateway.Stage.reasoningClassify, Gateway.Stage.promptBuild,
       Gateway.Stage.llmCall, Gateway.Stage.memPersist] ∧
    Gateway.Stage.costGuard ∉
      Gateway.handleMessage
        (Gateway.GEnv.mk true
          (AISvc.Env.mk (AISvc.ReasoningOutcome.ok (some "hi"))
            (fun _ => Except.ok (AISvc.HttpResp.mk 200 "ok")) false
            (fun _ => Except.error ()))) "hello" := by
  constructor
  · rfl
  · decide

/-- C4 as amended: every incoming text message goes through rate
limiting first; a message rejected by rate limiting reaches none of the
later stages; cost guarding is never part of the path; an admitted
message is followed immediately by the user-message memory store and
the context retrieval; and an LLM call presupposes admission and a
prior reasoning classification. -/
theorem c4_pipeline_amended (genv : Gateway.GEnv) (message : String) :
    (Gateway.handleMessage genv message).head? = some Gateway.Stage.rateLimit ∧
    (genv.rateOk = false →
      Gateway.handleMessage genv message = [Gateway.Stage.rateLimit]) ∧
    Gateway.Stage.costGuard ∉ Gateway.handleMessage genv message ∧
    (genv.rateOk = true →
      (Gateway.handleMessage genv message).take 3 =
        [Gateway.Stage.rateLimit, Gateway.Stage.memStore, Gateway.Stage.memRetrieve]) ∧
    (Gateway.Stage.llmCall ∈ Gateway.handleMessage genv message →
      genv.rateOk = true ∧
        Gateway.Stage.reasoningClassify ∈ Gateway.handleMessage genv message) ∧
    (genv.rateOk = false →
      Gateway.Stage.memStore ∉ Gateway.handleMessage genv message ∧
      Gateway.Stage.llmCall ∉ Gateway.handleMessage genv message ∧
      Gateway.Stage.memPersist ∉ Gateway.handleMessage genv message) := by
  cases hR : genv.rateOk with
  | false =>
    have hm : Gateway.handleMessage genv message = [Gateway.Stage.rateLimit] := by
      simp [Gateway.handleMessage, hR]
    rw [hm]
    exact ⟨rfl, fun _ => rfl, by simp, by simp, by simp, fun _ => by simp⟩
  | true =>
    have hm : Gateway.handleMessage genv message =
        Gateway.Stage.rateLimit :: Gateway.processTextMessage genv.ai message := by
      simp [Gateway.handleMessage, hR]
    rw [hm]
    have hcg := Gateway.costGuard_not_mem_aiStages genv.ai message
    refine ⟨rfl, by simp, ?_, by simp [Gateway.processTextMessage], ?_, by simp⟩
    · intro hmem
      simp only [Gateway.processTextMessage, List.mem_cons, List.mem_append] at hmem
      rcases hmem with h | h | h | h | h
      · exact absurd h (by simp)
      · exact absurd h (by simp)
      · exact absurd h (by simp)
      · exact hcg h
      · by_cases hS : (AISvc.generateResponse genv.ai message).1.success <;>
          simp [hS] at h
    · intro hmem
      refine ⟨rfl, ?_⟩
      simp only [Gateway.processTextMessage, List.mem_cons, List.mem_append] at hmem ⊢
      rcases hmem with h | h | h | h | h
      · exact absurd h (by simp)
      · exact absurd h (by simp)
      · exact absurd h (by simp)
      · exact Or.inr (Or.inr (Or.inr (Or.inl
          (Gateway.llmCall_implies_classify genv.ai message h))))
      · by_cases hS : (AISvc.generateResponse genv.ai message).1.success <;>
          simp [hS] at h

/-- Witness for C4 (amended) at a concrete input: a rate-limited
message produces the one-stage trace and reaches no later stage. -/
theorem c4_pipeline_amended_witness :
    Gateway.handleMessage
        (Gateway.GEnv.mk false
          (AISvc.Env.mk AISvc.ReasoningOutcome.exn
            (fun _ => Except.error ()) false (fun _ => Except.error ()))) "hey" =
      [Gateway.Stage.rateLimit] :=
  (c4_pipeline_amended
    (Gateway.GEnv.mk false
      (AISvc.Env.mk AISvc.ReasoningOutcome.exn
        (fun _ => Except.error ()) false (fun _ => Except.error ()))) "hey").2.1 rfl

/-- A task stepped to a program point outside the critical section is
not in the critical section afterwards, and anyone critical afterwards
was critical before and is someone else. -/
theorem ModelMgr.update_noncrit {n : ℕ} (pc : Fin n → ModelMgr.PC) (i : Fin n)
    (X : ModelMgr.PC) (hX1 : X ≠ ModelMgr.PC.locked) (hX2 : X ≠ ModelMgr.PC.storing)
    (j : Fin n)
    (hj : Function.update pc i X j = ModelMgr.PC.locked ∨
      Function.update pc i X j = ModelMgr.PC.storing) :
    (pc j = ModelMgr.PC.locked ∨ pc j = ModelMgr.PC.storing) ∧ j ≠ i := by
  by_cases hji : j = i
  · subst hji
    rw [Function.update_same] at hj
    rcases hj with hj | hj
    · exact absurd hj hX1
    · exact absurd hj hX2
  · rw [Function.update_noteq hji] at hj
    exact ⟨hj, hji⟩

/-- The initial state satisfies the locking-protocol invariant. -/
theorem ModelMgr.inv_init (n : ℕ) : ModelMgr.Inv (ModelMgr.init n) := by
  refine ⟨?_, ?_, ?_, ?_, ?_, ?_, ?_⟩
  · intro i h
    rcases h with h | h <;> simp [ModelMgr.init] at h
  · intro i j hi _
    rcases hi with h | h <;> simp [ModelMgr.init] at h
  · intro v hv
    simp [ModelMgr.init] at hv
  · intro i v hv
    simp [ModelMgr.init] at hv
  · exact Nat.zero_le 1
  · intro _
    rfl
  · intro i h
    simp [ModelMgr.init] at h

/-- Every interleaving step preserves the locking-protocol invariant. -/
theorem ModelMgr.inv_step {n : ℕ} {s t : ModelMgr.St n}
    (hs : ModelMgr.Inv s) (hstep : ModelMgr.Step s t) : ModelMgr.Inv t := by
  obtain ⟨hA, hB, hC, hD, hE, hG, hH⟩ := hs
  cases hstep with
  | checkHit i v hpc hcache =>
    have hnc := fun j hj => ModelMgr.update_noncrit s.pc i (ModelMgr.PC.done v)
      (by simp) (by simp) j hj
    refine ⟨fun j hj => hA j (hnc j hj).1,
      fun j k hj hk => hB j k (hnc j hj).1 (hnc k hk).1, hC, ?_, hE, ?_, ?_⟩
    · intro j w hw
      by_cases hji : j = i
      · subst hji
        simp only [Function.update_same] at hw
        injection hw with hw
        have hv := hC v hcache
        subst hw
        exact ⟨hv, by rw [← hv]; exact hcache⟩
      · simp only [Function.update_noteq hji] at hw
        exact hD j w hw
    · rintro ⟨hnone, -⟩
      rw [hcache] at hnone
      cases hnone
    · intro j hj
      by_cases hji : j = i
      · subst hji
        simp only [Function.update_same] at hj
        cases hj
      · simp only [Function.update_noteq hji] at hj
        exact hH j hj
  | checkMiss i hpc hcache =>
    have hnc := fun j hj => ModelMgr.update_noncrit s.pc i ModelMgr.PC.waiting
      (by simp) (by simp) j hj
    refine ⟨fun j hj => hA j (hnc j hj).1,
      fun j k hj hk => hB j k (hnc j hj).1 (hnc k hk).1, hC, ?_, hE, ?_,
      fun _ _ => hcache⟩
    · intro j w hw
      by_cases hji : j = i
      · subst hji
        simp only [Function.update_same] at hw
        cases hw
      · simp only [Function.update_noteq hji] at hw
        exact hD j w hw
    · rintro ⟨hnone, hns⟩
      apply hG
      refine ⟨hnone, fun j => ?_⟩
      by_cases hji : j = i
      · subst hji
        rw [hpc]
        intro h
        cases h
      · intro h
        refine hns j ?_
        show Function.update s.pc i ModelMgr.PC.waiting j = ModelMgr.PC.storing
        rw [Function.update_noteq hji]
        exact h
  | acquire i hpc hlock =>
    have honly : ∀ j, ModelMgr.crit (ModelMgr.St.mk s.cache true s.loads s.okLoads
        (Function.update s.pc i ModelMgr.PC.locked)) j → j = i := by
      intro j hj
      by_cases hji : j = i
      · exact hji
      · have hj' : ModelMgr.crit s j := by
          rcases hj with hj | hj
          · exact Or.inl (by simpa only [Function.update_noteq hji] using hj)
          · exact Or.inr (by simpa only [Function.update_noteq hji] using hj)
        have hl := hA j hj'
        rw [hlock] at hl
        cases hl
    refine ⟨fun _ _ => rfl, fun j k hj hk => by rw [honly j hj, honly k hk], hC, ?_,
      hE, ?_, ?_⟩
    · intro j w hw
      by_cases hji : j = i
      · subst hji
        simp only [Function.update_same] at hw
        cases hw
      · simp only [Function.update_noteq hji] at hw
        exact hD j w hw
    · rintro ⟨hnone, hns⟩
      apply hG
      refine ⟨hnone, fun j => ?_⟩
      by_cases hji : j = i
      · subst hji
        rw [hpc]
        intro h
        cases h
      · intro h
        refine hns j ?_
        show Function.update s.pc i ModelMgr.PC.locked j = ModelMgr.PC.storing
        rw [Function.update_noteq hji]
        exact h
    · intro j hj
      by_cases hji : j = i
      · subst hji
        simp only [Function.update_same] at hj
        cases hj
      · simp only [Function.update_noteq hji] at hj
        exact hH j hj
  | recheckHit i v hpc hcache =>
    have hnocrit : ∀ j, ¬ ModelMgr.crit (ModelMgr.St.mk s.cache false s.loads s.okLoads
        (Function.update s.pc i (ModelMgr.PC.done v))) j := by
      intro j hj
      obtain ⟨hj', hji⟩ := ModelMgr.update_noncrit s.pc i (ModelMgr.PC.done v)
        (by simp) (by simp) j hj
      exact hji (hB j i hj' (Or.inl hpc))
    refine ⟨fun j hj => absurd hj (hnocrit j), fun j k hj _ => absurd hj (hnocrit j),
      hC, ?_, hE, ?_, ?_⟩
    · intro j w hw
      by_cases hji : j = i
      · subst hji
        simp only [Function.update_same] at hw
        injection hw with hw
        have hv := hC v hcache
        subst hw
        exact ⟨hv, by rw [← hv]; exact hcache⟩
      · simp only [Function.update_noteq hji] at hw
        exact hD j w hw
    · rintro ⟨hnone, -⟩
      rw [hcache] at hnone
      cases hnone
    · intro j hj
      by_cases hji : j = i
      · subst hji
        simp only [Function.update_same] at hj
        cases hj
      · simp only [Function.update_noteq hji] at hj
        exact hH j hj
  | loadOk i hpc hcache =>
    have honly : ∀ j, ModelMgr.crit (ModelMgr.St.mk s.cache s.lock (s.loads + 1)
        (s.okLoads + 1) (Function.update s.pc i ModelMgr.PC.storing)) j → j = i := by
      intro j hj
      by_cases hji : j = i
      · exact hji
      · have hj' : ModelMgr.crit s j := by
          rcases hj with hj | hj
          · exact Or.inl (by simpa only [Function.update_noteq hji] using hj)
          · exact Or.inr (by simpa only [Function.update_noteq hji] using hj)
        exact hB j i hj' (Or.inl hpc)
    have hok : s.okLoads = 0 := by
      apply hG
      refine ⟨hcache, fun j hj => ?_⟩
      have hji := hB j i (Or.inr hj) (Or.inl hpc)
      subst hji
      rw [hpc] at hj
      cases hj
    refine ⟨fun j _ => hA i (Or.inl hpc),
      fun j k hj hk => by rw [honly j hj, honly k hk], hC, ?_,
      by show s.okLoads + 1 ≤ 1; omega, ?_, fun _ _ => hcache⟩
    · intro j w hw
      by_cases hji : j = i
      · subst hji
        simp only [Function.update_same] at hw
        cases hw
      · simp only [Function.update_noteq hji] at hw
        obtain ⟨-, hcs⟩ := hD j w hw
        rw [hcache] at hcs
        cases hcs
    · rintro ⟨-, hns⟩
      exact absurd (Function.update_same i ModelMgr.PC.storing s.pc) (hns i)
  | loadErr i hpc hcache =>
    have hnocrit : ∀ j, ¬ ModelMgr.crit (ModelMgr.St.mk s.cache false (s.loads + 1)
        s.okLoads (Function.update s.pc i ModelMgr.PC.failed)) j := by
      intro j hj
      obtain ⟨hj', hji⟩ := ModelMgr.update_noncrit s.pc i ModelMgr.PC.failed
        (by simp) (by simp) j hj
      exact hji (hB j i hj' (Or.inl hpc))
    refine ⟨fun j hj => absurd hj (hnocrit j), fun j k hj _ => absurd hj (hnocrit j),
      hC, ?_, hE, ?_, fun _ _ => hcache⟩
    · intro j w hw
      by_cases hji : j = i
      · subst hji
        simp only [Function.update_same] at hw
        cases hw
      · simp only [Function.update_noteq hji] at hw
        obtain ⟨-, hcs⟩ := hD j w hw
        rw [hcache] at hcs
        cases hcs
    · rintro ⟨hnone, hns⟩
      apply hG
      refine ⟨hcache, fun j => ?_⟩
      by_cases hji : j = i
      · subst hji
        rw [hpc]
        intro h
        cases h
      · intro h
        refine hns j ?_
        show Function.update s.pc i ModelMgr.PC.failed j = ModelMgr.PC.storing
        rw [Function.update_noteq hji]
        exact h
  | store i hpc =>
    have hnocrit : ∀ j, ¬ ModelMgr.crit
        (ModelMgr.St.mk (some ModelMgr.modelValue) false s.loads s.okLoads
          (Function.update s.pc i (ModelMgr.PC.done ModelMgr.modelValue))) j := by
      intro j hj
      obtain ⟨hj', hji⟩ := ModelMgr.update_noncrit s.pc i
        (ModelMgr.PC.done ModelMgr.modelValue) (by simp) (by simp) j hj
      exact hji (hB j i hj' (Or.inr hpc))
    refine ⟨fun j hj => absurd hj (hnocrit j), fun j k hj _ => absurd hj (hnocrit j),
      ?_, ?_, hE, ?_, ?_⟩
    · intro v hv
      injection hv with hv
      exact hv.symm
    · intro j w hw
      by_cases hji : j = i
      · subst hji
        simp only [Function.update_same] at hw
        injection hw with hw
        exact ⟨hw.symm, rfl⟩
      · simp only [Function.update_noteq hji] at hw
        obtain ⟨hwv, -⟩ := hD j w hw
        exact ⟨hwv, rfl⟩
    · rintro ⟨hnone, -⟩
      cases hnone
    · intro j hj
      by_cases hji : j = i
      · subst hji
        simp only [Function.update_same] at hj
        cases hj
      · simp only [Function.update_noteq hji] at hj
        exact absurd (hB j i (Or.inr hj) (Or.inr hpc)) hji

/-- Every state reachable by any interleaving of `get_embedding_model`
calls satisfies the locking-protocol invariant. -/
theorem ModelMgr.inv_reachable {n : ℕ} {s : ModelMgr.St n}
    (h : ModelMgr.Reachable n s) : ModelMgr.Inv s := by
  induction h with
  | refl => exact ModelMgr.inv_init n
  | tail _ hstep ih => exact ModelMgr.inv_step ih hstep

/-- C5 counterexample: with the model unloadable — every
`SentenceTransformer(...)` attempt raises (`model_manager.py` lines 61,
71-75) — two concurrent `get_embedding_model` calls each acquire the
lock, run the failing load sequence and release it with the cache
still unset: a reachable state in which the constructor has run twice,
refuting "loads the model at most once". -/
theorem c5_model_cache_counterexample :
    ModelMgr.Reachable 2
      (ModelMgr.St.mk none false 2 0
        (Function.update (Function.update (Function.update (Function.update
          (Function.update (Function.update (ModelMgr.init 2).pc
            0 ModelMgr.PC.waiting) 0 ModelMgr.PC.locked) 0 ModelMgr.PC.failed)
            1 ModelMgr.PC.waiting) 1 ModelMgr.PC.locked) 1 ModelMgr.PC.failed)) ∧
    1 < (ModelMgr.St.mk none false 2 0
        (Function.update (Function.update (Function.update (Function.update
          (Function.update (Function.update (ModelMgr.init 2).pc
            0 ModelMgr.PC.waiting) 0 ModelMgr.PC.locked) 0 ModelMgr.PC.failed)
            1 ModelMgr.PC.waiting) 1 ModelMgr.PC.locked) 1 ModelMgr.PC.failed)).loads := by
  constructor
  · exact Relation.ReflTransGen.tail (Relation.ReflTransGen.tail
      (Relation.ReflTransGen.tail (Relation.ReflTransGen.tail
        (Relation.ReflTransGen.tail (Relation.ReflTransGen.single
          (ModelMgr.Step.checkMiss (ModelMgr.init 2) 0 rfl rfl))
          (ModelMgr.Step.acquire _ 0 rfl rfl))
        (ModelMgr.Step.loadErr _ 0 rfl rfl))
        (ModelMgr.Step.checkMiss _ 1 rfl rfl))
        (ModelMgr.Step.acquire _ 1 rfl rfl))
      (ModelMgr.Step.loadErr _ 1 rfl rfl)
  · decide

/-- C5 as amended: the per-name lock with post-acquisition re-check
gives at most one *successful* load — in every reachable state of `n`
concurrent `get_embedding_model` calls at most one load sequence has
produced a model, every finished call returned the one cached handle,
and once the cache is filled no step loads (successfully or not) and
the cache never changes. A load that raises releases the lock with the
cache unset, so failed constructor runs can repeat (see the
counterexample). The cache dict and the lock dict are keyed by the
model name, so distinct names are independent copies of this system. -/
theorem c5_model_cache_single_load {n : ℕ} (s : ModelMgr.St n)
    (h : ModelMgr.Reachable n s) :
    s.okLoads ≤ 1 ∧
    (∀ i v, s.pc i = ModelMgr.PC.done v →
      v = ModelMgr.modelValue ∧ s.cache = some v) ∧
    (∀ t, ModelMgr.Step s t → s.cache ≠ none →
      t.loads = s.loads ∧ t.okLoads = s.okLoads ∧ t.cache = s.cache) := by
  obtain ⟨hA, hB, hC, hD, hE, hG, hH⟩ := ModelMgr.inv_reachable h
  refine ⟨hE, ?_, ?_⟩
  · intro i v hdone
    obtain ⟨hv, hcache⟩ := hD i v hdone
    exact ⟨hv, by rw [hv]; exact hcache⟩
  · intro t hstep hcache
    cases hstep with
    | checkHit i v h1 h2 => exact ⟨rfl, rfl, rfl⟩
    | checkMiss i h1 h2 => exact absurd h2 hcache
    | acquire i h1 h2 => exact ⟨rfl, rfl, rfl⟩
    | recheckHit i v h1 h2 => exact ⟨rfl, rfl, rfl⟩
    | loadOk i h1 h2 => exact absurd h2 hcache
    | loadErr i h1 h2 => exact absurd h2 hcache
    | store i h1 => exact absurd (hH i h1) hcache

/-- Witness for C5 (amended) at a concrete reachable state: one task of
one has taken the cache-miss step from the initial state; the
successful-load bound holds there. -/
theorem c5_model_cache_single_load_witness :
    (ModelMgr.St.mk none false 0 0
        (Function.update (ModelMgr.init 1).pc 0 ModelMgr.PC.waiting)).okLoads ≤ 1 :=
  (c5_model_cache_single_load _
    (Relation.ReflTransGen.single
      (ModelMgr.Step.checkMiss (ModelMgr.init 1) 0 rfl rfl))).1

/-- Distinct admitted timestamps inside the window `(t - W, t]`: running
any request trace whose times do not exceed `t` from a state `s`, a set
`B` of already-admitted window timestamps that is still recorded in `s`
and within budget stays within budget together with everything admitted
later. -/
theorem RateLimit.admitted_window_le (L W t : ℤ) (tr : List ℤ) :
    ∀ s B : Finset ℤ,
      (∀ x ∈ tr, x ≤ t) → B ⊆ s → (∀ τ ∈ B, t - W < τ ∧ τ ≤ t) → (B.card : ℤ) ≤ L →
      (((B ∪ (RateLimit.admittedTimes L W tr s).filter
          (fun τ => t - W < τ ∧ τ ≤ t)).card : ℤ) ≤ L) := by
  induction tr with
  | nil =>
    intro s B htr hBs hBw hBc
    simpa [RateLimit.admittedTimes] using hBc
  | cons now rest ih =>
    intro s B htr hBs hBw hBc
    have hnow : now ≤ t := htr now (List.mem_cons_self _ _)
    have hrest : ∀ x ∈ rest, x ≤ t := fun x hx => htr x (List.mem_cons_of_mem _ hx)
    have hBs' : B ⊆ RateLimit.prune W now s := by
      intro τ hτ
      have hw := hBw τ hτ
      simp only [RateLimit.prune, Finset.mem_filter]
      refine ⟨hBs hτ, ?_⟩
      rintro ⟨-, hle⟩
      omega
    by_cases hadm : ((RateLimit.prune W now s).card : ℤ) < L
    · have hAT : RateLimit.admittedTimes L W (now :: rest) s =
          {now} ∪ RateLimit.admittedTimes L W rest
            (insert now (RateLimit.prune W now s)) := by
        simp [RateLimit.admittedTimes, RateLimit.isAllowed, hadm]
      have hB'c : ((insert now B).card : ℤ) ≤ L := by
        have hc1 : B.card ≤ (RateLimit.prune W now s).card := Finset.card_le_card hBs'
        have hc2 : (insert now B).card ≤ B.card + 1 := Finset.card_insert_le _ _
        omega
      by_cases hwin : t - W < now
      · have hB's : insert now B ⊆ insert now (RateLimit.prune W now s) :=
          Finset.insert_subset_insert _ hBs'
        have hB'w : ∀ τ ∈ insert now B, t - W < τ ∧ τ ≤ t := by
          intro τ hτ
          rcases Finset.mem_insert.mp hτ with rfl | hτ
          · exact ⟨hwin, hnow⟩
          · exact hBw τ hτ
        rw [hAT, Finset.filter_union, Finset.filter_singleton, if_pos ⟨hwin, hnow⟩,
          ← Finset.union_assoc, Finset.union_comm B {now}, ← Finset.insert_eq]
        exact ih _ _ hrest hB's hB'w hB'c
      · have hB's : B ⊆ insert now (RateLimit.prune W now s) :=
          hBs'.trans (Finset.subset_insert _ _)
        rw [hAT, Finset.filter_union, Finset.filter_singleton,
          if_neg (by rintro ⟨h1, -⟩; exact hwin h1), Finset.empty_union]
        exact ih _ _ hrest hB's hBw hBc
    · have hAT : RateLimit.admittedTimes L W (now :: rest) s =
          RateLimit.admittedTimes L W rest (RateLimit.prune W now s) := by
        simp [RateLimit.admittedTimes, RateLimit.isAllowed, hadm]
      rw [hAT]
      exact ih _ _ hrest hBs' hBw hBc

/-- C1 counterexample: with the configured "user" limit (10 requests
per 60-second window), eleven requests arriving in the same epoch
second are all admitted — `zadd` stores the member `str(now)`, so the
same-second entries collapse into one sorted-set element and the count
never reaches the limit: strictly more than `L` requests are admitted
inside one window of `W` seconds. -/
theorem c1_rate_limiter_counterexample :
    RateLimit.limits "user" = 10 ∧ RateLimit.windows "user" = 60 ∧
    (RateLimit.processTrace (RateLimit.limits "user") (RateLimit.windows "user")
        (List.replicate 11 100) ∅).1 = List.replicate 11 true := by
  refine ⟨rfl, rfl, ?_⟩
  decide

/-- C1 as amended: `is_allowed` first removes every recorded entry with
timestamp in `[0, now - W]` (for non-negative entries, exactly those at
most `now - W`), admits iff the number of remaining entries is strictly
below `L` (recording `now` in the set on admission, leaving the pruned
set otherwise); consequently at most `L` *distinct request timestamps*
are admitted for a given key within any window `(t - W, t]` — requests
sharing one epoch second collapse into one sorted-set member, so the
bound on raw requests claimed by the spec fails (see the
counterexample). -/
theorem c1_rate_limiter_amended (L W now t : ℤ) (s : Finset ℤ) (tr : List ℤ)
    (hL : 0 ≤ L) (htr : ∀ x ∈ tr, x ≤ t) :
    ((RateLimit.isAllowed L W now s).1 = true ↔
      ((RateLimit.prune W now s).card : ℤ) < L) ∧
    (∀ τ : ℤ, 0 ≤ τ → (τ ∈ RateLimit.prune W now s ↔ τ ∈ s ∧ now - W < τ)) ∧
    ((RateLimit.isAllowed L W now s).1 = true →
      (RateLimit.isAllowed L W now s).2 = insert now (RateLimit.prune W now s)) ∧
    ((RateLimit.isAllowed L W now s).1 = false →
      (RateLimit.isAllowed L W now s).2 = RateLimit.prune W now s) ∧
    (((RateLimit.admittedTimes L W tr ∅).filter
        (fun τ => t - W < τ ∧ τ ≤ t)).card : ℤ) ≤ L := by
  refine ⟨?_, ?_, ?_, ?_, ?_⟩
  · by_cases hadm : ((RateLimit.prune W now s).card : ℤ) < L <;>
      simp [RateLimit.isAllowed, hadm]
  · intro τ hτ
    simp only [RateLimit.prune, Finset.mem_filter]
    constructor
    · rintro ⟨hs, hn⟩
      refine ⟨hs, ?_⟩
      by_contra hle
      exact hn ⟨hτ, by omega⟩
    · rintro ⟨hs, hgt⟩
      exact ⟨hs, by rintro ⟨-, hle⟩; omega⟩
  · intro h
    by_cases hadm : ((RateLimit.prune W now s).card : ℤ) < L
    · simp [RateLimit.isAllowed, hadm]
    · simp [RateLimit.isAllowed, hadm] at h
  · intro h
    by_cases hadm : ((RateLimit.prune W now s).card : ℤ) < L
    · simp [RateLimit.isAllowed, hadm] at h
    · simp [RateLimit.isAllowed, hadm]
  · have hmain := RateLimit.admitted_window_le L W t tr ∅ ∅ htr
      (Finset.empty_subset _) (by simp) (by simpa using hL)
    simpa using hmain

/-- Witness for C1 (amended) at a concrete input: one request at time
100 on an empty set under the "user" configuration is admitted, and the
distinct admitted timestamps in the window `(40, 100]` number at most
10. -/
theorem c1_rate_limiter_amended_witness :
    (RateLimit.isAllowed 10 60 100 ∅).1 = true ∧
    (((RateLimit.admittedTimes 10 60 [100] ∅).filter
        (fun τ => 100 - 60 < τ ∧ τ ≤ 100)).card : ℤ) ≤ 10 := by
  have h := c1_rate_limiter_amended 10 60 100 100 ∅ [100] (by norm_num)
    (by intro x hx; simp at hx; omega)
  exact ⟨h.1.mpr (by simp [RateLimit.prune]), h.2.2.2.2⟩
